import Mathlib

/-!
Verification of the friction-factor engine of the HW5 repository
(`src/HW5Stem/hw5a.py` and `src/HW5Stem/hw5b.py`).

The Python code is embedded shallowly over `ℝ`:

* `swamee_jain` mirrors `hw5a.swamee_jain`.
* `colebrook Re rr` mirrors the inner residual `colebrook(f)` closed over
  `Re` and `rr` in `hw5a.ff`, sentinel included.
* The call to `scipy.optimize.fsolve` is abstracted as a value of type
  `Solver`: a function taking the residual and the initial guess and
  returning a `SolveOutcome` (`converged root`, `notConverged` for
  `ier ≠ 1`, or `raised` for an exception caught by the bare `except`).
  A solver that only reports genuine roots satisfies `ExactSolver`.
* `ff` mirrors `hw5a.ff`; `ffE` is the exception-aware variant recording
  the one place the code can raise for the inputs the spec discusses:
  the unguarded division `64 / Re` (laminar) and `5.74 / Re ** 0.9`
  inside the initial-guess Swamee–Jain evaluation (turbulent), both of
  which raise `ZeroDivisionError` in Python exactly when `Re = 0`.
* `ffPoint` mirrors `hw5b.ffPoint`; the call
  `rnd.normalvariate(mean, sig)` is abstracted as a parameter
  `sample : ℝ → ℝ → ℝ` giving the value drawn for a given mean and
  standard deviation.
-/

namespace HW5

/-- Outcome of the abstracted `fsolve` call in `hw5a.ff`: a root with
convergence flag `ier = 1`, non-convergence (`ier ≠ 1`), or an exception
caught by the surrounding `try`/`except`. -/
inductive SolveOutcome where
  | converged (root : ℝ)
  | notConverged
  | raised

/-- An abstract scalar root-finder: given the residual and the initial
guess, report an outcome.  Stands for `scipy.optimize.fsolve`. -/
def Solver : Type := (ℝ → ℝ) → ℝ → SolveOutcome

/-- A solver is exact when every root it reports as converged really is a
root of the residual it was given. -/
def ExactSolver (s : Solver) : Prop :=
  ∀ g x r, s g x = SolveOutcome.converged r → g r = 0

/-- A solver that always reports non-convergence.  It is vacuously exact
and is used to instantiate theorems at concrete inputs where the
Colebrook residual has no root (so that any exact solver must fail). -/
def failSolver : Solver := fun _ _ => SolveOutcome.notConverged

/-- A solver that always claims convergence to `0.25`.  Used to
instantiate theorems at inputs where `0.25` really is a root of the
residual. -/
def quarterSolver : Solver := fun _ _ => SolveOutcome.converged 0.25

/-- `hw5a.swamee_jain`: `0.25 / (np.log10((rr / 3.7) + (5.74 / Re ** 0.9))) ** 2`. -/
noncomputable def swamee_jain (Re rr : ℝ) : ℝ :=
  0.25 / (Real.logb 10 ((rr / 3.7) + (5.74 / Re ^ (0.9 : ℝ)))) ^ 2

/-- The Colebrook residual defined inside `hw5a.ff`:
returns the sentinel `1e6` when `f ≤ 0 or Re ≤ 0`, otherwise
`1 / np.sqrt(f) + 2.0 * np.log10((rr / 3.7) + (2.51 / (Re * np.sqrt(f))))`. -/
noncomputable def colebrook (Re rr f : ℝ) : ℝ :=
  if f ≤ 0 ∨ Re ≤ 0 then 1e6
  else 1 / Real.sqrt f + 2.0 * Real.logb 10 ((rr / 3.7) + (2.51 / (Re * Real.sqrt f)))

/-- `hw5a.ff Re rr CBEQN`, with the `fsolve` call abstracted by `s`.
When `CBEQN` is true: run the solver on the Colebrook residual from the
Swamee–Jain initial guess; return the root on convergence and the
Swamee–Jain value on non-convergence or exception.  When `CBEQN` is
false: the laminar closed form `64 / Re`. -/
noncomputable def ff (s : Solver) (Re rr : ℝ) (CBEQN : Bool) : ℝ :=
  if CBEQN then
    match s (colebrook Re rr) (swamee_jain Re rr) with
    | SolveOutcome.converged r => r
    | SolveOutcome.notConverged => swamee_jain Re rr
    | SolveOutcome.raised => swamee_jain Re rr
  else 64 / Re

/-- Exception-aware embedding of `hw5a.ff` for nonnegative `Re`.  In the
laminar branch Python evaluates `64 / Re`, which raises
`ZeroDivisionError` at `Re = 0`; in the turbulent branch
`initial_guess = swamee_jain(Re, rr)` is evaluated before the
`try` block and its `5.74 / Re ** 0.9` raises `ZeroDivisionError` at
`Re = 0`.  Every other path returns normally (the bare `except` around
`fsolve` converts any solver exception into the fallback value). -/
noncomputable def ffE (s : Solver) (Re rr : ℝ) (CBEQN : Bool) : Except String ℝ :=
  if Re = 0 then Except.error "ZeroDivisionError"
  else Except.ok (ff s Re rr CBEQN)

/-- `hw5b.ffPoint Re rr`, with the solver and the normal-variate draw
abstracted.  `sample mean sig` stands for `rnd.normalvariate(mean, sig)`. -/
noncomputable def ffPoint (s : Solver) (sample : ℝ → ℝ → ℝ) (Re rr : ℝ) : ℝ :=
  if 4000 ≤ Re then
    ff s Re rr true
  else if Re ≤ 2000 then
    ff s Re rr false
  else
    let CBff := ff s 4000 rr true
    let Lamff := ff s 2000 rr false
    let mean := Lamff + (CBff - Lamff) * (Re - 2000) / 2000
    let sig := 0.2 * mean
    sample mean sig

/-- The Colebrook residual at parameters `(Re, rr)` has no root at all. -/
def NoRoot (Re rr : ℝ) : Prop := ∀ f : ℝ, colebrook Re rr f ≠ 0

/-! ### Helper lemmas -/

theorem swamee_jain_nonneg (Re rr : ℝ) : 0 ≤ swamee_jain Re rr :=
  div_nonneg (by norm_num) (sq_nonneg _)

theorem ff_failSolver (Re rr : ℝ) : ff failSolver Re rr true = swamee_jain Re rr := by
  simp [ff, failSolver]

/-- A genuine root of the Colebrook residual is strictly positive when
`Re > 0`, because the residual is the nonzero sentinel on `f ≤ 0`. -/
theorem colebrook_root_pos {Re rr r : ℝ}
    (hroot : colebrook Re rr r = 0) : 0 < r := by
  by_contra h
  push_neg at h
  rw [colebrook, if_pos (Or.inl h)] at hroot
  norm_num at hroot

theorem exactSolver_failSolver : ExactSolver failSolver := by
  intro g x r h
  simp [failSolver] at h

theorem ff_converged {s : Solver} {Re rr r : ℝ}
    (h : s (colebrook Re rr) (swamee_jain Re rr) = SolveOutcome.converged r) :
    ff s Re rr true = r := by
  simp [ff, h]

theorem ff_notConverged {s : Solver} {Re rr : ℝ}
    (h : s (colebrook Re rr) (swamee_jain Re rr) = SolveOutcome.notConverged) :
    ff s Re rr true = swamee_jain Re rr := by
  simp [ff, h]

theorem ff_raised {s : Solver} {Re rr : ℝ}
    (h : s (colebrook Re rr) (swamee_jain Re rr) = SolveOutcome.raised) :
    ff s Re rr true = swamee_jain Re rr := by
  simp [ff, h]

/-- Unfolding of the Colebrook residual away from the sentinel branch. -/
theorem colebrook_pos_eval {Re rr f : ℝ} (hf : 0 < f) (hRe : 0 < Re) :
    colebrook Re rr f =
      1 / Real.sqrt f +
        2.0 * Real.logb 10 ((rr / 3.7) + (2.51 / (Re * Real.sqrt f))) := by
  rw [colebrook, if_neg]
  push_neg
  exact ⟨hf, hRe⟩

/-- In the transitional band `ffPoint` returns the sampled value at the
interpolated mean and its 20 % spread. -/
theorem ffPoint_band (s : Solver) (sample : ℝ → ℝ → ℝ) (Re rr : ℝ)
    (h1 : 2000 < Re) (h2 : Re < 4000) :
    ffPoint s sample Re rr =
      sample
        (ff s 2000 rr false +
          (ff s 4000 rr true - ff s 2000 rr false) * (Re - 2000) / 2000)
        (0.2 * (ff s 2000 rr false +
          (ff s 4000 rr true - ff s 2000 rr false) * (Re - 2000) / 2000)) := by
  rw [ffPoint, if_neg (by linarith), if_neg (by linarith)]

/-- For `Re ≥ 4000` and `rr ∈ [0, 0.05]` the Swamee–Jain value is
strictly positive: its `log10` argument lies strictly between `0`
and `1`. -/
theorem swamee_jain_pos {Re rr : ℝ} (hRe : (4000 : ℝ) ≤ Re)
    (hrr : 0 ≤ rr) (hrr2 : rr ≤ 0.05) : 0 < swamee_jain Re rr := by
  have hRe0 : (0 : ℝ) < Re := by linarith
  have hpow : (0 : ℝ) < Re ^ (0.9 : ℝ) := Real.rpow_pos_of_pos hRe0 _
  have h63 : (63 : ℝ) ≤ Re ^ (0.9 : ℝ) := by
    have h1 : (4000 : ℝ) ^ ((1 : ℝ) / 2) ≤ (4000 : ℝ) ^ (0.9 : ℝ) :=
      Real.rpow_le_rpow_of_exponent_le (by norm_num) (by norm_num)
    have h2 : (63 : ℝ) ≤ (4000 : ℝ) ^ ((1 : ℝ) / 2) := by
      rw [← Real.sqrt_eq_rpow]
      exact (Real.le_sqrt (by norm_num) (by norm_num)).mpr (by norm_num)
    have h3 : (4000 : ℝ) ^ (0.9 : ℝ) ≤ Re ^ (0.9 : ℝ) :=
      Real.rpow_le_rpow (by norm_num) hRe (by norm_num)
    linarith
  have hx0 : 0 < rr / 3.7 + 5.74 / Re ^ (0.9 : ℝ) := by
    have hd : 0 < 5.74 / Re ^ (0.9 : ℝ) := div_pos (by norm_num) hpow
    have hr : 0 ≤ rr / 3.7 := div_nonneg hrr (by norm_num)
    linarith
  have hx1 : rr / 3.7 + 5.74 / Re ^ (0.9 : ℝ) < 1 := by
    have hd : 5.74 / Re ^ (0.9 : ℝ) ≤ 5.74 / 63 :=
      div_le_div_of_nonneg_left (by norm_num) (by norm_num) h63
    have hr : rr / 3.7 ≤ 0.05 / 3.7 := by gcongr
    have : (0.05 : ℝ) / 3.7 + 5.74 / 63 < 1 := by norm_num
    linarith
  have hlog : Real.logb 10 (rr / 3.7 + 5.74 / Re ^ (0.9 : ℝ)) < 0 :=
    Real.logb_neg (by norm_num) hx0 hx1
  have hsq : 0 < (Real.logb 10 (rr / 3.7 + 5.74 / Re ^ (0.9 : ℝ))) ^ 2 := by
    have := mul_self_pos.mpr (ne_of_lt hlog)
    rwa [← sq] at this
  exact div_pos (by norm_num) hsq

/-- Roots of the Colebrook residual are monotone in the roughness: at
the same `Re > 0`, a root for the rougher pipe is at least the root for
the smoother one. -/
theorem colebrook_root_le {Re rr1 rr2 r1 r2 : ℝ} (hRe : 0 < Re)
    (hrr1 : 0 ≤ rr1) (h12 : rr1 ≤ rr2)
    (hg1 : colebrook Re rr1 r1 = 0) (hg2 : colebrook Re rr2 r2 = 0) :
    r1 ≤ r2 := by
  have hr1 : 0 < r1 := colebrook_root_pos hg1
  have hr2 : 0 < r2 := colebrook_root_pos hg2
  by_contra hlt
  push_neg at hlt
  have hs1 : 0 < Real.sqrt r1 := Real.sqrt_pos.mpr hr1
  have hs2 : 0 < Real.sqrt r2 := Real.sqrt_pos.mpr hr2
  have hss : Real.sqrt r2 < Real.sqrt r1 := Real.sqrt_lt_sqrt (le_of_lt hr2) hlt
  rw [colebrook_pos_eval hr1 hRe] at hg1
  rw [colebrook_pos_eval hr2 hRe] at hg2
  have ha1 : 0 < rr1 / 3.7 + 2.51 / (Re * Real.sqrt r1) := by
    have hd : 0 < 2.51 / (Re * Real.sqrt r1) := div_pos (by norm_num) (mul_pos hRe hs1)
    have hr : 0 ≤ rr1 / 3.7 := div_nonneg hrr1 (by norm_num)
    linarith
  have harg : rr1 / 3.7 + 2.51 / (Re * Real.sqrt r1) ≤
      rr2 / 3.7 + 2.51 / (Re * Real.sqrt r2) := by
    have t1 : rr1 / 3.7 ≤ rr2 / 3.7 := by gcongr
    have t2 : 2.51 / (Re * Real.sqrt r1) ≤ 2.51 / (Re * Real.sqrt r2) :=
      div_le_div_of_nonneg_left (by norm_num) (mul_pos hRe hs2)
        (mul_le_mul_of_nonneg_left (le_of_lt hss) (le_of_lt hRe))
    linarith
  have hlog : Real.logb 10 (rr1 / 3.7 + 2.51 / (Re * Real.sqrt r1)) ≤
      Real.logb 10 (rr2 / 3.7 + 2.51 / (Re * Real.sqrt r2)) :=
    Real.logb_le_logb_of_le (by norm_num) ha1 harg
  have hinv : 1 / Real.sqrt r1 < 1 / Real.sqrt r2 :=
    one_div_lt_one_div_of_lt hs2 hss
  linarith

/-- When `rr ≥ 3.7` the residual is strictly positive everywhere (the
`log10` argument is at least `1`), so no root exists. -/
theorem noRoot_of_large_rr {Re rr : ℝ} (hRe : 0 < Re) (hrr : 3.7 ≤ rr) :
    NoRoot Re rr := by
  intro f
  by_cases hf : f ≤ 0
  · rw [colebrook, if_pos (Or.inl hf)]
    norm_num
  · push_neg at hf
    rw [colebrook_pos_eval hf hRe]
    have hs : 0 < Real.sqrt f := Real.sqrt_pos.mpr hf
    have h1 : 0 < 1 / Real.sqrt f := by positivity
    have h2 : 0 ≤ Real.logb 10 ((rr / 3.7) + (2.51 / (Re * Real.sqrt f))) := by
      apply Real.logb_nonneg (by norm_num)
      have hd : 0 < 2.51 / (Re * Real.sqrt f) := div_pos (by norm_num) (mul_pos hRe hs)
      have hr : 1 ≤ rr / 3.7 := by
        rw [le_div_iff₀ (by norm_num)]
        linarith
      linarith
    have : 0 < 1 / Real.sqrt f +
        2.0 * Real.logb 10 ((rr / 3.7) + (2.51 / (Re * Real.sqrt f))) := by linarith
    exact ne_of_gt this

/-- At `Re = 4000` the Swamee–Jain value is strictly smaller at
`rr = 100` than at `rr = 10`: both `log10` arguments exceed `1`, so the
squared logarithm grows with `rr` and the quotient shrinks. -/
theorem swamee_jain_100_lt_10 : swamee_jain 4000 100 < swamee_jain 4000 10 := by
  have hpow : (0 : ℝ) < (4000 : ℝ) ^ (0.9 : ℝ) := Real.rpow_pos_of_pos (by norm_num) _
  have hd0 : 0 < 5.74 / (4000 : ℝ) ^ (0.9 : ℝ) := div_pos (by norm_num) hpow
  have ha : (1 : ℝ) < (10 : ℝ) / 3.7 + 5.74 / (4000 : ℝ) ^ (0.9 : ℝ) := by
    have : (1 : ℝ) < (10 : ℝ) / 3.7 := by norm_num
    linarith
  have hab : (10 : ℝ) / 3.7 + 5.74 / (4000 : ℝ) ^ (0.9 : ℝ) <
      (100 : ℝ) / 3.7 + 5.74 / (4000 : ℝ) ^ (0.9 : ℝ) := by
    have : (10 : ℝ) / 3.7 < (100 : ℝ) / 3.7 := by norm_num
    linarith
  have hla : 0 < Real.logb 10 ((10 : ℝ) / 3.7 + 5.74 / (4000 : ℝ) ^ (0.9 : ℝ))  :=
    Real.logb_pos (by norm_num) ha
  have hlb : Real.logb 10 ((10 : ℝ) / 3.7 + 5.74 / (4000 : ℝ) ^ (0.9 : ℝ)) <
      Real.logb 10 ((100 : ℝ) / 3.7 + 5.74 / (4000 : ℝ) ^ (0.9 : ℝ)) :=
    Real.logb_lt_logb (by norm_num) (by linarith) hab
  have hsq : (Real.logb 10 ((10 : ℝ) / 3.7 + 5.74 / (4000 : ℝ) ^ (0.9 : ℝ))) ^ 2 <
      (Real.logb 10 ((100 : ℝ) / 3.7 + 5.74 / (4000 : ℝ) ^ (0.9 : ℝ))) ^ 2 :=
    pow_lt_pow_left₀ hlb (le_of_lt hla) (by norm_num)
  have hsqa : 0 < (Real.logb 10 ((10 : ℝ) / 3.7 + 5.74 / (4000 : ℝ) ^ (0.9 : ℝ))) ^ 2 := by
    have := mul_self_pos.mpr (ne_of_gt hla)
    rwa [← sq] at this
  exact div_lt_div_of_pos_left (by norm_num) hsqa hsq

/-- `0.25` is an exact root of the Colebrook residual at `Re = 4000`,
`rr = 0.3653565`: the `log10` argument evaluates to exactly `1/10`. -/
theorem colebrook_root_concrete : colebrook 4000 (0.3653565) (0.25) = 0 := by
  rw [colebrook_pos_eval (by norm_num) (by norm_num)]
  have hs : Real.sqrt (0.25 : ℝ) = 0.5 := by
    rw [show (0.25 : ℝ) = 0.5 ^ 2 by norm_num, Real.sqrt_sq (by norm_num)]
  rw [hs]
  have harg : (0.3653565 : ℝ) / 3.7 + 2.51 / (4000 * 0.5) = (10 : ℝ)⁻¹ := by norm_num
  rw [harg, Real.logb_inv, Real.logb_self_eq_one (by norm_num)]
  norm_num

/-! ### Claim theorems -/

/-- C3: for every `Re` in `(0, 2000]` and every `rr`,
`frictionFactor(Re, rr, false)` equals `64/Re` exactly, independent of
`rr`; in particular `frictionFactor(64, 0, false) = 1` exactly. -/
theorem C3_laminar_exact (s : Solver) (Re rr rr' : ℝ)
    (hRe : 0 < Re) (hRe2 : Re ≤ 2000) :
    ff s Re rr false = 64 / Re ∧
    ff s Re rr' false = ff s Re rr false ∧
    ff s 64 0 false = 1 := by
  refine ⟨rfl, rfl, ?_⟩
  show (64 : ℝ) / 64 = 1
  norm_num

/-- Witness for C3 at `Re = 64`, `rr = 0`, `rr' = 0.01`. -/
theorem C3_laminar_exact_witness :
    ff failSolver 64 0 false = 64 / 64 ∧
    ff failSolver 64 (0.01) false = ff failSolver 64 0 false ∧
    ff failSolver 64 0 false = 1 :=
  C3_laminar_exact failSolver 64 0 (0.01) (by norm_num) (by norm_num)

/-- C5: the Colebrook residual returns the sentinel `1e6` (and, being a
total function of its arguments, raises nothing) whenever `f ≤ 0` or
`Re ≤ 0`. -/
theorem C5_residual_sentinel (Re rr f : ℝ) (h : f ≤ 0 ∨ Re ≤ 0) :
    colebrook Re rr f = 1e6 := by
  rw [colebrook, if_pos h]

/-- Witness for C5 at `Re = 4000`, `rr = 0`, `f = -1`. -/
theorem C5_residual_sentinel_witness : colebrook 4000 0 (-1) = 1e6 :=
  C5_residual_sentinel 4000 0 (-1) (Or.inl (by norm_num))

/-- C1: for positive `Re` and `rr ≥ 0`, the turbulent branch of
`frictionFactor` never propagates a failure: on convergence it returns
the found root, on non-convergence or on an exception from the solve it
returns the Swamee–Jain value for the same `(Re, rr)`, and the
exception-aware embedding confirms the call returns normally. -/
theorem C1_turbulent_fallback (s : Solver) (Re rr : ℝ)
    (hRe : 0 < Re) (hrr : 0 ≤ rr) :
    (∀ r, s (colebrook Re rr) (swamee_jain Re rr) = SolveOutcome.converged r →
      ff s Re rr true = r) ∧
    (s (colebrook Re rr) (swamee_jain Re rr) = SolveOutcome.notConverged →
      ff s Re rr true = swamee_jain Re rr) ∧
    (s (colebrook Re rr) (swamee_jain Re rr) = SolveOutcome.raised →
      ff s Re rr true = swamee_jain Re rr) ∧
    ffE s Re rr true = Except.ok (ff s Re rr true) := by
  refine ⟨?_, ?_, ?_, ?_⟩
  · intro r hr
    simp [ff, hr]
  · intro hr
    simp [ff, hr]
  · intro hr
    simp [ff, hr]
  · rw [ffE, if_neg (ne_of_gt hRe)]

/-- Witness for C1 at a solver that never converges, `Re = 4000`, `rr = 0`. -/
theorem C1_turbulent_fallback_witness :
    (∀ r, failSolver (colebrook 4000 0) (swamee_jain 4000 0) = SolveOutcome.converged r →
      ff failSolver 4000 0 true = r) ∧
    (failSolver (colebrook 4000 0) (swamee_jain 4000 0) = SolveOutcome.notConverged →
      ff failSolver 4000 0 true = swamee_jain 4000 0) ∧
    (failSolver (colebrook 4000 0) (swamee_jain 4000 0) = SolveOutcome.raised →
      ff failSolver 4000 0 true = swamee_jain 4000 0) ∧
    ffE failSolver 4000 0 true = Except.ok (ff failSolver 4000 0 true) :=
  C1_turbulent_fallback failSolver 4000 0 (by norm_num) (by norm_num)

/-- C2: `evaluateAtPoint` dispatches on `Re` alone: `Re ≥ 4000` gives the
implicit turbulent solve, `Re ≤ 2000` gives the laminar formula, and in
between it returns one draw from the normal distribution whose mean is
`f_lam + (f_turb - f_lam)·(Re - 2000)/2000` (with
`f_turb = frictionFactor(4000, rr, true)` and
`f_lam = frictionFactor(2000, rr, false)`) and whose standard deviation
is `0.2` times that mean. -/
theorem C2_ffPoint_dispatch (s : Solver) (sample : ℝ → ℝ → ℝ) (Re rr : ℝ)
    (hRe : 0 < Re) (hrr : 0 ≤ rr) :
    (4000 ≤ Re → ffPoint s sample Re rr = ff s Re rr true) ∧
    (Re ≤ 2000 → ffPoint s sample Re rr = ff s Re rr false) ∧
    (2000 < Re → Re < 4000 →
      ffPoint s sample Re rr =
        sample
          (ff s 2000 rr false +
            (ff s 4000 rr true - ff s 2000 rr false) * (Re - 2000) / 2000)
          (0.2 * (ff s 2000 rr false +
            (ff s 4000 rr true - ff s 2000 rr false) * (Re - 2000) / 2000))) := by
  refine ⟨?_, ?_, ?_⟩
  · intro h
    rw [ffPoint, if_pos h]
  · intro h
    rw [ffPoint, if_neg (by linarith), if_pos h]
  · intro h1 h2
    rw [ffPoint, if_neg (by linarith), if_neg (by linarith)]

/-- Witness for C2 at `Re = 3000`, `rr = 0`. -/
theorem C2_ffPoint_dispatch_witness :
    (4000 ≤ (3000 : ℝ) → ffPoint failSolver (fun m _ => m) 3000 0 = ff failSolver 3000 0 true) ∧
    ((3000 : ℝ) ≤ 2000 → ffPoint failSolver (fun m _ => m) 3000 0 = ff failSolver 3000 0 false) ∧
    (2000 < (3000 : ℝ) → (3000 : ℝ) < 4000 →
      ffPoint failSolver (fun m _ => m) 3000 0 =
        (fun m _ => m)
          (ff failSolver 2000 0 false +
            (ff failSolver 4000 0 true - ff failSolver 2000 0 false) * ((3000 : ℝ) - 2000) / 2000)
          (0.2 * (ff failSolver 2000 0 false +
            (ff failSolver 4000 0 true - ff failSolver 2000 0 false) * ((3000 : ℝ) - 2000) / 2000))) :=
  C2_ffPoint_dispatch failSolver (fun m _ => m) 3000 0 (by norm_num) (by norm_num)

/-- C4: the transitional interpolation's endpoints agree with the
dispatch: `evaluateAtPoint(2000, rr)` equals the laminar
`frictionFactor(2000, rr, false)`, `evaluateAtPoint(4000, rr)` equals
the turbulent `frictionFactor(4000, rr, true)`, and
`evaluateAtPoint(500, 0.01)` equals `frictionFactor(500, 0.01, false)`. -/
theorem C4_boundary_consistency (s : Solver) (sample : ℝ → ℝ → ℝ) (rr : ℝ)
    (hrr : 0 ≤ rr) :
    ffPoint s sample 2000 rr = ff s 2000 rr false ∧
    ffPoint s sample 4000 rr = ff s 4000 rr true ∧
    ffPoint s sample 500 (0.01) = ff s 500 (0.01) false := by
  refine ⟨?_, ?_, ?_⟩
  · rw [ffPoint, if_neg (by norm_num), if_pos (by norm_num)]
  · rw [ffPoint, if_pos (by norm_num)]
  · rw [ffPoint, if_neg (by norm_num), if_pos (by norm_num)]

/-- Witness for C4 at `rr = 0`. -/
theorem C4_boundary_consistency_witness :
    ffPoint failSolver (fun m _ => m) 2000 0 = ff failSolver 2000 0 false ∧
    ffPoint failSolver (fun m _ => m) 4000 0 = ff failSolver 4000 0 true ∧
    ffPoint failSolver (fun m _ => m) 500 (0.01) = ff failSolver 500 (0.01) false :=
  C4_boundary_consistency failSolver (fun m _ => m) 0 (by norm_num)

/-- C7: outside the transitional band the result of `evaluateAtPoint`
does not depend on the random draw at all — two calls with the same
`(Re, rr)` agree exactly — while strictly inside the band the result
does depend on the draw (for any `Re` there, two samplers giving the
draws `0` and `1` produce different results), so the function is
deterministic outside the band and only there. -/
theorem C7_determinism (s : Solver) (sample₁ sample₂ : ℝ → ℝ → ℝ) (Re rr : ℝ)
    (hrr : 0 ≤ rr) (h : Re ≤ 2000 ∨ 4000 ≤ Re) :
    ffPoint s sample₁ Re rr = ffPoint s sample₂ Re rr ∧
    ∀ Re', 2000 < Re' → Re' < 4000 →
      ffPoint s (fun _ _ => 0) Re' rr ≠ ffPoint s (fun _ _ => 1) Re' rr := by
  constructor
  · rcases h with h | h
    · by_cases h4 : 4000 ≤ Re
      · rw [ffPoint, if_pos h4, ffPoint, if_pos h4]
      · rw [ffPoint, if_neg h4, if_pos h, ffPoint, if_neg h4, if_pos h]
    · rw [ffPoint, if_pos h, ffPoint, if_pos h]
  · intro Re' h1 h2
    rw [ffPoint, if_neg (by linarith), if_neg (by linarith),
      ffPoint, if_neg (by linarith), if_neg (by linarith)]
    norm_num

/-- Witness for C7 at `Re = 500`, `rr = 0`. -/
theorem C7_determinism_witness :
    ffPoint failSolver (fun m _ => m) 500 0 = ffPoint failSolver (fun _ _ => 7) 500 0 ∧
    ∀ Re', 2000 < Re' → Re' < 4000 →
      ffPoint failSolver (fun _ _ => 0) Re' 0 ≠ ffPoint failSolver (fun _ _ => 1) Re' 0 :=
  C7_determinism failSolver (fun m _ => m) (fun _ _ => 7) 500 0 (by norm_num)
    (Or.inl (by norm_num))

/-- C10: at `Re = 0` the laminar branch evaluates the unguarded
`64 / Re` and raises `ZeroDivisionError` instead of returning a value,
for any `rr`: the never-raises guarantee does not extend to `Re = 0`. -/
theorem C10_laminar_zero_raises (s : Solver) (rr : ℝ) :
    ffE s 0 rr false = Except.error "ZeroDivisionError" := by
  rw [ffE, if_pos rfl]

/-- C6 (counterexample): in the transitional band the returned value is
an unclamped normal draw, so a draw six standard deviations below the
mean yields a strictly negative friction factor at `Re = 3000`,
`rr = 0` — the claimed non-negativity fails there. -/
theorem C6_counterexample :
    ffPoint failSolver (fun mean sig => mean - 6 * sig) 3000 0 < 0 := by
  rw [ffPoint_band failSolver _ 3000 0 (by norm_num) (by norm_num)]
  have hCB : ff failSolver 4000 0 true = swamee_jain 4000 0 := ff_failSolver 4000 0
  have hsj : 0 ≤ swamee_jain 4000 0 := swamee_jain_nonneg 4000 0
  have hlam : ff failSolver 2000 0 false = 64 / 2000 := rfl
  rw [hCB, hlam]
  nlinarith [hsj]

/-- C6 (amended): for `Re > 0`, `rr ≥ 0` and an exact solver,
`frictionFactor` is non-negative for either flag value, and
`evaluateAtPoint` is non-negative in the laminar and turbulent regimes
(`Re ≤ 2000` or `Re ≥ 4000`); in the transitional band the result is an
unclamped normal draw and can be negative. -/
theorem C6_nonneg_amended (s : Solver) (sample : ℝ → ℝ → ℝ) (Re rr : ℝ) (b : Bool)
    (hRe : 0 < Re) (hrr : 0 ≤ rr) (hs : ExactSolver s) :
    0 ≤ ff s Re rr b ∧
    ((Re ≤ 2000 ∨ 4000 ≤ Re) → 0 ≤ ffPoint s sample Re rr) := by
  have hff : ∀ b', 0 ≤ ff s Re rr b' := by
    intro b'
    cases b' with
    | false =>
      show 0 ≤ 64 / Re
      positivity
    | true =>
      cases houtcome : s (colebrook Re rr) (swamee_jain Re rr) with
      | converged r =>
        rw [ff_converged houtcome]
        exact le_of_lt (colebrook_root_pos (hs _ _ _ houtcome))
      | notConverged =>
        rw [ff_notConverged houtcome]
        exact swamee_jain_nonneg Re rr
      | raised =>
        rw [ff_raised houtcome]
        exact swamee_jain_nonneg Re rr
  refine ⟨hff b, ?_⟩
  intro h
  rcases h with h | h
  · by_cases h4 : 4000 ≤ Re
    · rw [ffPoint, if_pos h4]
      exact hff true
    · rw [ffPoint, if_neg h4, if_pos h]
      exact hff false
  · rw [ffPoint, if_pos h]
    exact hff true

/-- Witness for the amended C6 at `Re = 64`, `rr = 0`, laminar flag. -/
theorem C6_nonneg_amended_witness :
    0 ≤ ff failSolver 64 0 false ∧
    (((64 : ℝ) ≤ 2000 ∨ 4000 ≤ (64 : ℝ)) → 0 ≤ ffPoint failSolver (fun m _ => m) 64 0) :=
  C6_nonneg_amended failSolver (fun m _ => m) 64 0 false (by norm_num) (by norm_num)
    exactSolver_failSolver

/-- C8 (counterexample): at `Re = 4000` the residual has no root at
`rr = 10` or `rr = 100` (its `log10` argument always exceeds `1`), so
any exact solver — here the always-failing one — falls back to
Swamee–Jain for both, and that fallback is strictly *smaller* at the
larger roughness: monotonicity in `rr` fails as stated. -/
theorem C8_counterexample :
    ExactSolver failSolver ∧ NoRoot 4000 10 ∧ NoRoot 4000 100 ∧
    ff failSolver 4000 100 true < ff failSolver 4000 10 true := by
  refine ⟨exactSolver_failSolver, noRoot_of_large_rr (by norm_num) (by norm_num),
    noRoot_of_large_rr (by norm_num) (by norm_num), ?_⟩
  rw [ff_failSolver, ff_failSolver]
  exact swamee_jain_100_lt_10

/-- C8 (amended): at fixed `Re ≥ 4000`, whenever both implicit solves
converge to exact roots of the Colebrook residual, the turbulent
friction factor is non-decreasing in the relative roughness. -/
theorem C8_turbulent_mono_converged (s : Solver) (Re rr1 rr2 r1 r2 : ℝ)
    (hRe : 4000 ≤ Re) (hrr1 : 0 ≤ rr1) (h12 : rr1 ≤ rr2)
    (hs1 : s (colebrook Re rr1) (swamee_jain Re rr1) = SolveOutcome.converged r1)
    (hs2 : s (colebrook Re rr2) (swamee_jain Re rr2) = SolveOutcome.converged r2)
    (hg1 : colebrook Re rr1 r1 = 0) (hg2 : colebrook Re rr2 r2 = 0) :
    ff s Re rr1 true ≤ ff s Re rr2 true := by
  rw [ff_converged hs1, ff_converged hs2]
  exact colebrook_root_le (by linarith) hrr1 h12 hg1 hg2

/-- Witness for the amended C8 at `Re = 4000`, `rr = 0.3653565`, where
`0.25` is an exact root of the residual. -/
theorem C8_turbulent_mono_converged_witness :
    ff quarterSolver 4000 (0.3653565) true ≤ ff quarterSolver 4000 (0.3653565) true :=
  C8_turbulent_mono_converged quarterSolver 4000 (0.3653565) (0.3653565) (0.25) (0.25)
    (by norm_num) (by norm_num) (le_refl _) rfl rfl
    colebrook_root_concrete colebrook_root_concrete

/-- C9: for `Re ≥ 4000` and `rr ∈ [0, 0.05]` and an exact solver, the
turbulent friction factor is strictly positive: a converged root cannot
lie in `f ≤ 0` (the residual is the constant sentinel `1e6` there), and
the Swamee–Jain fallback is positive because its `log10` argument lies
strictly between `0` and `1`. -/
theorem C9_turbulent_pos (s : Solver) (Re rr : ℝ) (hRe : (4000 : ℝ) ≤ Re)
    (hrr : 0 ≤ rr) (hrr2 : rr ≤ 0.05) (hs : ExactSolver s) :
    0 < ff s Re rr true := by
  cases houtcome : s (colebrook Re rr) (swamee_jain Re rr) with
  | converged r =>
    rw [ff_converged houtcome]
    exact colebrook_root_pos (hs _ _ _ houtcome)
  | notConverged =>
    rw [ff_notConverged houtcome]
    exact swamee_jain_pos hRe hrr hrr2
  | raised =>
    rw [ff_raised houtcome]
    exact swamee_jain_pos hRe hrr hrr2

/-- Witness for C9 at `Re = 4000`, `rr = 0`, with the always-failing
(vacuously exact) solver. -/
theorem C9_turbulent_pos_witness : 0 < ff failSolver 4000 0 true :=
  C9_turbulent_pos failSolver 4000 0 (by norm_num) (by norm_num) (by norm_num)
    exactSolver_failSolver

end HW5
